import Mathlib

/-!
# Verification of the linux-utcp snapshot collector

Shallow embedding of the collector routines of `linux-utcp`
(`src/linux_utcp/commands/{process,system,network,service}.py`) and proofs of
the specification's claims about them.

Modelling conventions:
* Python numbers appearing in percentages are modelled as `ℚ` (the floating
  point representation error is out of scope; all arithmetic here is exact).
* Python's builtin `round(x, n)` rounds half to even; it is modelled by
  `pyRound`.
* OS facilities reached through `psutil` / `subprocess` are modelled as
  explicit adapter arguments: each collector takes the raw data the platform
  would hand it and is otherwise a pure function, exactly mirroring the
  Python control flow on that data.
-/

namespace LinuxUtcp

/-- Python's `round` applied to an integer-scaled value: round half to even.
The result is `⌊q⌋` when the fractional part is below `1/2`, `⌊q⌋ + 1` when
above, and the even neighbour on an exact tie. Implemented on the
numerator/denominator so that the kernel can evaluate it on literals; the
characterisation through `⌊q⌋` is `roundHalfEven_eq_ite`. -/
def roundHalfEven (q : ℚ) : ℤ :=
  let f : ℤ := q.num.fdiv q.den
  let r2 : ℤ := 2 * (q.num - f * q.den)
  if r2 < (q.den : ℤ) then f
  else if (q.den : ℤ) < r2 then f + 1
  else if f % 2 = 0 then f else f + 1

/-- Python's `round(q, n)`: round half to even at `n` decimal digits.
Implemented through `Rat.divInt` for kernel evaluation; the algebraic form
is `pyRound_eq`. -/
def pyRound (q : ℚ) (n : ℕ) : ℚ :=
  Rat.divInt (roundHalfEven (Rat.divInt (q.num * 10 ^ n) (q.den : ℤ))) (10 ^ n)

theorem fdiv_num_den (q : ℚ) : q.num.fdiv q.den = ⌊q⌋ := by
  rw [Int.fdiv_eq_ediv _ (by positivity), ← Rat.floor_intCast_div_natCast,
    Rat.num_div_den]

theorem natCast_den_mul_self (q : ℚ) : (q.den : ℚ) * q = q.num := by
  have hd : ((q.den : ℚ)) ≠ 0 := by
    exact_mod_cast q.den_pos.ne'
  rw [mul_comm]
  exact ((div_eq_iff hd).mp (Rat.num_div_den q)).symm

theorem roundHalfEven_eq_ite (q : ℚ) :
    roundHalfEven q =
      if q - ⌊q⌋ < 1/2 then ⌊q⌋
      else if 1/2 < q - (⌊q⌋ : ℚ) then ⌊q⌋ + 1
      else if ⌊q⌋ % 2 = 0 then ⌊q⌋ else ⌊q⌋ + 1 := by
  have hd : (0 : ℚ) < (q.den : ℚ) := by exact_mod_cast q.den_pos
  have hnum := natCast_den_mul_self q
  have h1 : (2 * (q.num - ⌊q⌋ * q.den) < (q.den : ℤ)) ↔ q - ⌊q⌋ < 1/2 := by
    rw [show (2 * (q.num - ⌊q⌋ * q.den) < (q.den : ℤ)) ↔
        ((2 : ℚ) * (q.num - (⌊q⌋ : ℚ) * q.den) < (q.den : ℚ)) by
      exact_mod_cast Iff.rfl]
    constructor <;> intro h <;> nlinarith
  have h2 : ((q.den : ℤ) < 2 * (q.num - ⌊q⌋ * q.den)) ↔ 1/2 < q - ⌊q⌋ := by
    rw [show ((q.den : ℤ) < 2 * (q.num - ⌊q⌋ * q.den)) ↔
        ((q.den : ℚ) < (2 : ℚ) * (q.num - (⌊q⌋ : ℚ) * q.den)) by
      exact_mod_cast Iff.rfl]
    constructor <;> intro h <;> nlinarith
  unfold roundHalfEven
  rw [fdiv_num_den]
  simp only [h1, h2]

theorem roundHalfEven_ge_floor (q : ℚ) : ⌊q⌋ ≤ roundHalfEven q := by
  rw [roundHalfEven_eq_ite]
  split
  · exact le_refl _
  · split
    · exact le_of_lt (lt_add_one _)
    · split
      · exact le_refl _
      · exact le_of_lt (lt_add_one _)

theorem roundHalfEven_le_floor_add_one (q : ℚ) :
    roundHalfEven q ≤ ⌊q⌋ + 1 := by
  rw [roundHalfEven_eq_ite]
  split
  · exact le_of_lt (lt_add_one _)
  · split
    · exact le_refl _
    · split
      · exact le_of_lt (lt_add_one _)
      · exact le_refl _

theorem roundHalfEven_eq_floor_of_lt_half {q : ℚ} (h : q - ⌊q⌋ < 1/2) :
    roundHalfEven q = ⌊q⌋ := by
  rw [roundHalfEven_eq_ite, if_pos h]

theorem pyRound_eq (q : ℚ) (n : ℕ) :
    pyRound q n = (roundHalfEven (q * 10 ^ n) : ℚ) / 10 ^ n := by
  unfold pyRound
  have hs : Rat.divInt (q.num * 10 ^ n) (q.den : ℤ) = q * 10 ^ n := by
    rw [Rat.divInt_eq_div]
    push_cast
    rw [mul_div_right_comm, Rat.num_div_den]
  rw [hs, Rat.divInt_eq_div]
  push_cast
  rfl

/-- Nonnegative inputs round to nonnegative integers. -/
theorem roundHalfEven_nonneg {q : ℚ} (hq : 0 ≤ q) : 0 ≤ roundHalfEven q := by
  have h := roundHalfEven_ge_floor q
  have h0 : (0 : ℤ) ≤ ⌊q⌋ := Int.le_floor.mpr (by exact_mod_cast hq)
  omega

/-- Rounding does not overshoot an integer upper bound. -/
theorem roundHalfEven_le_of_le {q : ℚ} {m : ℤ} (hq : q ≤ m) :
    roundHalfEven q ≤ m := by
  have hfl : ⌊q⌋ ≤ m := Int.floor_le_floor (by exact_mod_cast hq) |>.trans_eq (Int.floor_intCast m)
  rcases lt_or_eq_of_le hfl with h | h
  · have := roundHalfEven_le_floor_add_one q
    omega
  · -- the floor already equals the bound, so the fractional part is 0
    have hfloor : (⌊q⌋ : ℚ) ≤ q := Int.floor_le q
    have hqm : q = (m : ℚ) := le_antisymm hq (by rw [← h]; exact_mod_cast hfloor)
    have hfrac : q - ⌊q⌋ < 1/2 := by
      rw [hqm] at *
      rw [Int.floor_intCast]
      norm_num
    rw [roundHalfEven_eq_floor_of_lt_half hfrac]
    omega

/-- Rounding at any number of digits keeps a value inside a `[0, m]`
interval with integer endpoint `m`. -/
theorem pyRound_mem_Icc {q : ℚ} {m : ℤ} (n : ℕ) (h0 : 0 ≤ q) (h1 : q ≤ m) :
    0 ≤ pyRound q n ∧ pyRound q n ≤ m := by
  rw [pyRound_eq]
  have hpow : (0 : ℚ) < 10 ^ n := by positivity
  constructor
  · have := roundHalfEven_nonneg (q := q * 10 ^ n) (by positivity)
    positivity
  · rw [div_le_iff₀ hpow]
    have hle : q * 10 ^ n ≤ ((m * 10 ^ n : ℤ) : ℚ) := by
      push_cast
      exact mul_le_mul_of_nonneg_right h1 (le_of_lt hpow)
    have := roundHalfEven_le_of_le hle
    calc (roundHalfEven (q * 10 ^ n) : ℚ) ≤ ((m * 10 ^ n : ℤ) : ℚ) := by exact_mod_cast this
      _ = (m : ℚ) * 10 ^ n := by push_cast; ring

/-! ## Process list (`commands/process.py`, `list_processes`) -/

/-- Exception outcome of the per-process sampling inside the loop body of
`list_processes`: `psutil.NoSuchProcess`, `psutil.AccessDenied` and
`psutil.ZombieProcess` are caught and the process is skipped. -/
inductive SampleOutcome
  | ok
  | noSuchProcess
  | accessDenied
  | zombieProcess
deriving DecidableEq

/-- One item of the raw enumeration: the `proc.info` attributes requested
from `psutil.process_iter` together with the values the two per-process
sampling calls (`proc.cpu_percent(interval=0)`, `proc.memory_percent()`)
would return, and whether any of those calls raised. `psutil.process_iter`
yields processes in ascending pid order (it sorts the pid table). -/
structure RawProc where
  pid : ℕ
  name : String
  username : Option String
  status : String
  cmdline : List String
  cpu : ℚ
  mem : ℚ
  outcome : SampleOutcome
deriving DecidableEq

/-- The `process_info` dict built for each surviving process. -/
structure ProcessEntry where
  pid : ℕ
  user : String
  cpu_percent : ℚ
  memory_percent : ℚ
  status : String
  name : String
  command : String
deriving DecidableEq

/-- Loop body of `list_processes`: builds `process_info`, or skips the
process when sampling raised. Python's `pinfo['username'] or 'unknown'`
maps the falsy usernames (`None`, `''`) to `'unknown'`; the command is the
space-joined cmdline, falling back to the name for an empty cmdline. -/
def buildEntry (s : RawProc) : Option ProcessEntry :=
  match s.outcome with
  | .ok => some
      { pid := s.pid
        user := match s.username with
          | none => "unknown"
          | some u => if u = "" then "unknown" else u
        cpu_percent := pyRound s.cpu 1
        memory_percent := pyRound s.mem 1
        status := s.status
        name := s.name
        command := if s.cmdline = [] then s.name
                   else String.intercalate " " s.cmdline }
  | _ => none

/-- Insertion step of a stable descending sort on `cpu_percent`: the new
element goes in front of the first element whose key is `≤` its own, so
among equal keys the earlier element stays earlier. -/
def insertByCpuDesc (x : ProcessEntry) : List ProcessEntry → List ProcessEntry
  | [] => [x]
  | y :: ys =>
      if y.cpu_percent ≤ x.cpu_percent then x :: y :: ys
      else y :: insertByCpuDesc x ys

/-- Model of `all_processes.sort(key=lambda p: p['cpu_percent'],
reverse=True)`. Python's sort is stable, and a stable descending sort by a
key is unique, so insertion sort realises it. -/
def sortByCpuDesc : List ProcessEntry → List ProcessEntry
  | [] => []
  | x :: xs => insertByCpuDesc x (sortByCpuDesc xs)

/-- Return value of `list_processes`. -/
structure ProcessListResult where
  processes : List ProcessEntry
  total_count : ℕ
deriving DecidableEq

/-- Shallow embedding of `list_processes`, as a function of the raw
enumeration handed over by `psutil`. -/
def list_processes (l : List RawProc) : ProcessListResult :=
  let all_processes := l.filterMap buildEntry
  { processes := (sortByCpuDesc all_processes).take 100
    total_count := all_processes.length }

/-- Target order of the process list: CPU percent descending, ties broken
by ascending pid. -/
def cpuPidOrder (a b : ProcessEntry) : Prop :=
  b.cpu_percent < a.cpu_percent ∨
    (a.cpu_percent = b.cpu_percent ∧ a.pid < b.pid)

theorem buildEntry_pid {s : RawProc} {e : ProcessEntry}
    (h : buildEntry s = some e) : e.pid = s.pid := by
  unfold buildEntry at h
  cases hs : s.outcome <;> rw [hs] at h
  · injection h with h
    rw [← h]
  · exact Option.noConfusion h
  · exact Option.noConfusion h
  · exact Option.noConfusion h

theorem mem_insertByCpuDesc {z x : ProcessEntry} {l : List ProcessEntry} :
    z ∈ insertByCpuDesc x l ↔ z = x ∨ z ∈ l := by
  induction l with
  | nil => simp [insertByCpuDesc]
  | cons y ys ih =>
      unfold insertByCpuDesc
      split
      · simp
      · simp only [List.mem_cons, ih]
        tauto

theorem mem_sortByCpuDesc {z : ProcessEntry} {l : List ProcessEntry} :
    z ∈ sortByCpuDesc l ↔ z ∈ l := by
  induction l with
  | nil => simp [sortByCpuDesc]
  | cons x xs ih => simp [sortByCpuDesc, mem_insertByCpuDesc, ih]

theorem length_insertByCpuDesc (x : ProcessEntry) (l : List ProcessEntry) :
    (insertByCpuDesc x l).length = l.length + 1 := by
  induction l with
  | nil => rfl
  | cons y ys ih =>
      unfold insertByCpuDesc
      split
      · simp
      · simp [ih]

theorem length_sortByCpuDesc (l : List ProcessEntry) :
    (sortByCpuDesc l).length = l.length := by
  induction l with
  | nil => rfl
  | cons x xs ih => simp [sortByCpuDesc, length_insertByCpuDesc, ih]

/-- Inserting an element whose pid is below every pid in a list that is
already in target order keeps the list in target order. -/
theorem pairwise_insertByCpuDesc {x : ProcessEntry} {l : List ProcessEntry}
    (hl : l.Pairwise cpuPidOrder) (hpid : ∀ y ∈ l, x.pid < y.pid) :
    (insertByCpuDesc x l).Pairwise cpuPidOrder := by
  induction l with
  | nil => simp [insertByCpuDesc]
  | cons y ys ih =>
      rw [List.pairwise_cons] at hl
      unfold insertByCpuDesc
      split
      · -- x is placed in front: x relates to y and to everything below y
        rename_i hle
        rw [List.pairwise_cons, List.pairwise_cons]
        refine ⟨?_, hl.1, hl.2⟩
        intro z hz
        have hzle : z.cpu_percent ≤ y.cpu_percent := by
          rcases List.mem_cons.mp hz with rfl | hz
          · exact le_refl _
          · rcases hl.1 z hz with h | h
            · exact le_of_lt h
            · exact le_of_eq h.1.symm
        rcases lt_or_eq_of_le (le_trans hzle hle) with h | h
        · exact Or.inl h
        · exact Or.inr ⟨h.symm, hpid z hz⟩
      · -- x sinks below y
        rename_i hgt
        push_neg at hgt
        rw [List.pairwise_cons]
        constructor
        · intro z hz
          rcases mem_insertByCpuDesc.mp hz with rfl | hz
          · exact Or.inl hgt
          · exact hl.1 z hz
        · exact ih hl.2 (fun z hz => hpid z (List.mem_cons_of_mem y hz))

/-- Stable descending sort of a pid-ascending list is in target order. -/
theorem pairwise_sortByCpuDesc {l : List ProcessEntry}
    (h : l.Pairwise (fun a b => a.pid < b.pid)) :
    (sortByCpuDesc l).Pairwise cpuPidOrder := by
  induction l with
  | nil => simp [sortByCpuDesc]
  | cons x xs ih =>
      rw [List.pairwise_cons] at h
      exact pairwise_insertByCpuDesc (ih h.2)
        (fun y hy => h.1 y (mem_sortByCpuDesc.mp hy))

/-- The surviving entries keep the ascending pid order of the raw
enumeration. -/
theorem pairwise_filterMap_buildEntry {l : List RawProc}
    (h : l.Pairwise (fun a b => a.pid < b.pid)) :
    (l.filterMap buildEntry).Pairwise (fun a b => a.pid < b.pid) := by
  rw [List.pairwise_filterMap]
  refine h.imp ?_
  intro a b hab e he f hf
  rw [buildEntry_pid he, buildEntry_pid hf]
  exact hab

/-- Concrete enumeration item used in examples: an accessible process with
the given pid and CPU sample. -/
def exRaw (p : ℕ) (c : ℚ) : RawProc :=
  { pid := p, name := "p", username := some "root", status := "running"
    cmdline := [], cpu := c, mem := 0, outcome := .ok }

/-- The spec's end-to-end example: cpu values `{1: 0.0, 5: 3.2, 9: 3.2}`
(`3.2 = 16/5`, written through `Rat.divInt` so the kernel can evaluate). -/
def exC1 : List RawProc :=
  [exRaw 1 0, exRaw 5 (Rat.divInt 16 5), exRaw 9 (Rat.divInt 16 5)]

theorem buildEntry_percents {s : RawProc} {e : ProcessEntry}
    (h : buildEntry s = some e) :
    e.cpu_percent = pyRound s.cpu 1 ∧ e.memory_percent = pyRound s.mem 1 := by
  unfold buildEntry at h
  cases hs : s.outcome <;> rw [hs] at h
  · injection h with h
    rw [← h]
    exact ⟨rfl, rfl⟩
  · exact Option.noConfusion h
  · exact Option.noConfusion h
  · exact Option.noConfusion h

/-- C1: on a pid-ascending enumeration (the order `psutil.process_iter`
produces), `list_processes` returns the entries sorted by CPU percent
descending with ties broken by ascending pid, truncated to at most 100;
on the concrete cpu values `{1: 0.0, 5: 3.2, 9: 3.2}` the output pid order
is `[5, 9, 1]`. -/
theorem list_processes_sorted_truncated (l : List RawProc)
    (h : l.Pairwise (fun a b => a.pid < b.pid)) :
    (list_processes l).processes.Pairwise cpuPidOrder
    ∧ (list_processes l).processes.length ≤ 100
    ∧ (list_processes exC1).processes.map ProcessEntry.pid = [5, 9, 1] := by
  refine ⟨?_, ?_, by decide⟩
  · exact List.Pairwise.sublist (List.take_sublist _ _)
      (pairwise_sortByCpuDesc (pairwise_filterMap_buildEntry h))
  · exact List.length_take_le _ _

theorem list_processes_sorted_truncated_witness :
    (list_processes exC1).processes.Pairwise cpuPidOrder
    ∧ (list_processes exC1).processes.length ≤ 100
    ∧ (list_processes exC1).processes.map ProcessEntry.pid = [5, 9, 1] :=
  list_processes_sorted_truncated exC1 (by decide)

/-- An enumeration containing a process whose sampled CPU percent is 250
(psutil reports > 100 for multi-threaded processes on several cores). -/
def exC4 : List RawProc := [exRaw 1 250]

/-- C4 fails as stated: `list_processes` never clamps the sampled values,
so a sampled CPU percent of 250 is emitted as 250, outside `[0, 100]`. -/
theorem list_processes_percent_bounds_counterexample :
    ¬ ∀ e ∈ (list_processes exC4).processes,
        (0 ≤ e.cpu_percent ∧ e.cpu_percent ≤ 100) ∧
        (0 ≤ e.memory_percent ∧ e.memory_percent ≤ 100) := by
  decide

/-- C4 amended: the emitted percentages are the sampled values rounded to
one decimal, so they lie in `[0, 100]` whenever every sampled value does. -/
theorem list_processes_percent_bounds (l : List RawProc)
    (h : ∀ s ∈ l, (0 ≤ s.cpu ∧ s.cpu ≤ 100) ∧ (0 ≤ s.mem ∧ s.mem ≤ 100)) :
    ∀ e ∈ (list_processes l).processes,
      (0 ≤ e.cpu_percent ∧ e.cpu_percent ≤ 100) ∧
      (0 ≤ e.memory_percent ∧ e.memory_percent ≤ 100) := by
  intro e he
  have he' : e ∈ l.filterMap buildEntry :=
    mem_sortByCpuDesc.mp ((List.take_sublist _ _).subset he)
  obtain ⟨s, hs, hbe⟩ := List.mem_filterMap.mp he'
  obtain ⟨hcpu, hmem⟩ := buildEntry_percents hbe
  obtain ⟨⟨hc0, hc1⟩, hm0, hm1⟩ := h s hs
  have hc := pyRound_mem_Icc (m := 100) 1 hc0 (by exact_mod_cast hc1)
  have hm := pyRound_mem_Icc (m := 100) 1 hm0 (by exact_mod_cast hm1)
  rw [hcpu, hmem]
  exact ⟨⟨hc.1, by exact_mod_cast hc.2⟩, hm.1, by exact_mod_cast hm.2⟩

/-- Concrete entry produced for the witness enumeration `[exRaw 7 50]`. -/
def exC4W : List RawProc := [exRaw 7 50]

theorem list_processes_percent_bounds_witness :
    (0 ≤ (50 : ℚ) ∧ (50 : ℚ) ≤ 100) ∧ (0 ≤ (0 : ℚ) ∧ (0 : ℚ) ≤ 100) := by
  have h := list_processes_percent_bounds exC4W (by decide)
      { pid := 7, user := "root", cpu_percent := 50, memory_percent := 0
        status := "running", name := "p", command := "p" } (by decide)
  simpa using h

/-- C6: `total_count` is the size of the surviving pre-truncation set, the
returned list is its 100-element truncation, so `total_count` bounds the
returned length and exceeds it exactly when more than 100 processes
survived. -/
theorem list_processes_total_count (l : List RawProc) :
    (list_processes l).total_count = (l.filterMap buildEntry).length
    ∧ (list_processes l).processes.length
        = min 100 (l.filterMap buildEntry).length
    ∧ (list_processes l).processes.length ≤ (list_processes l).total_count
    ∧ ((list_processes l).processes.length < (list_processes l).total_count
        ↔ 100 < (l.filterMap buildEntry).length) := by
  have ht : (list_processes l).total_count = (l.filterMap buildEntry).length :=
    rfl
  have hlen : (list_processes l).processes.length
      = min 100 (l.filterMap buildEntry).length := by
    simp [list_processes, List.length_take, length_sortByCpuDesc]
  refine ⟨ht, hlen, ?_, ?_⟩ <;> rw [hlen, ht] <;> omega

/-! ## Memory snapshot (`commands/system.py`, `get_memory_info`) -/

/-- Rounding an integer-valued rational changes nothing. -/
theorem roundHalfEven_intCast (z : ℤ) : roundHalfEven (z : ℚ) = z := by
  have h : ((z : ℚ)) - ⌊(z : ℚ)⌋ < 1/2 := by
    rw [Int.floor_intCast]
    norm_num
  rw [roundHalfEven_eq_floor_of_lt_half h, Int.floor_intCast]

/-- Python's `round` fixes integer-valued rationals at any precision. -/
theorem pyRound_intCast (z : ℤ) (n : ℕ) : pyRound (z : ℚ) n = (z : ℚ) := by
  rw [pyRound_eq]
  have hz : ((z : ℚ)) * 10 ^ n = ((z * 10 ^ n : ℤ) : ℚ) := by
    push_cast
    ring
  rw [hz, roundHalfEven_intCast]
  push_cast
  rw [mul_div_cancel_right₀]
  positivity

/-- Fields of `psutil.virtual_memory()`. On Linux psutil computes
`used = total - free - buffers - cache` and
`percent = (total - available) / total * 100`; the collector takes the
fields as given. -/
structure VirtualMemoryRaw where
  total : ℕ
  available : ℕ
  used : ℕ
  free : ℕ
  percent : ℚ
deriving DecidableEq

/-- Fields of `psutil.swap_memory()`. -/
structure SwapMemoryRaw where
  total : ℕ
  used : ℕ
  free : ℕ
  percent : ℚ
deriving DecidableEq

/-- Return value of `get_memory_info`. -/
structure MemoryInfo where
  ram_total : ℕ
  ram_available : ℕ
  ram_used : ℕ
  ram_used_percent : ℚ
  ram_free : ℕ
  swap_total : ℕ
  swap_used : ℕ
  swap_used_percent : ℚ
  swap_free : ℕ
deriving DecidableEq

/-- Shallow embedding of `get_memory_info`: every field is passed through
from the adapter, with the two percents run through `round(x, 2)`. -/
def get_memory_info (ram : VirtualMemoryRaw) (swap : SwapMemoryRaw) :
    MemoryInfo :=
  { ram_total := ram.total
    ram_available := ram.available
    ram_used := ram.used
    ram_used_percent := pyRound ram.percent 2
    ram_free := ram.free
    swap_total := swap.total
    swap_used := swap.used
    swap_used_percent := pyRound swap.percent 2
    swap_free := swap.free }

/-- A psutil-shaped Linux snapshot: `used = 256`, `free = 128` (buffers and
cache account for the remaining 640 of the 1024 total), and
`percent = (total - available)/total * 100 = 50`. -/
def exVm : VirtualMemoryRaw :=
  { total := 1024, available := 512, used := 256, free := 128, percent := 50 }

/-- Swap snapshot used alongside `exVm` in the counterexample. -/
def exSwap : SwapMemoryRaw := { total := 0, used := 0, free := 0, percent := 0 }

/-- C2 fails as stated: the collector copies the adapter fields verbatim,
and on Linux `used + free` misses `total` by the buffer/cache size (here
640 bytes, far beyond rounding tolerance) while `percent` is
`(total - available)/total*100`, not `used/total*100` (50 vs 25). -/
theorem get_memory_info_invariant_counterexample :
    (get_memory_info exVm exSwap).ram_used + (get_memory_info exVm exSwap).ram_free
        + 512 < (get_memory_info exVm exSwap).ram_total
    ∧ ¬ |(get_memory_info exVm exSwap).ram_used_percent
          - pyRound (((get_memory_info exVm exSwap).ram_used : ℚ)
              / ((get_memory_info exVm exSwap).ram_total : ℚ) * 100) 2|
        ≤ 1/100 := by
  have h1 : (get_memory_info exVm exSwap).ram_used_percent = ((50 : ℤ) : ℚ) := by
    show pyRound (50 : ℚ) 2 = ((50 : ℤ) : ℚ)
    rw [show ((50 : ℚ)) = ((50 : ℤ) : ℚ) by norm_num]
    exact pyRound_intCast 50 2
  have h2 : pyRound (((get_memory_info exVm exSwap).ram_used : ℚ)
      / ((get_memory_info exVm exSwap).ram_total : ℚ) * 100) 2 = ((25 : ℤ) : ℚ) := by
    show pyRound (((256 : ℕ) : ℚ) / ((1024 : ℕ) : ℚ) * 100) 2 = ((25 : ℤ) : ℚ)
    rw [show (((256 : ℕ) : ℚ) / ((1024 : ℕ) : ℚ) * 100) = ((25 : ℤ) : ℚ) by norm_num]
    exact pyRound_intCast 25 2
  refine ⟨by decide, ?_⟩
  rw [h1, h2]
  norm_num

/-- C2 amended: all memory fields are the adapter values verbatim (the
percent rounded to 2 decimals), so the claimed invariant holds exactly when
the adapter snapshot satisfies it. -/
theorem get_memory_info_invariant (ram : VirtualMemoryRaw) (swap : SwapMemoryRaw)
    (h1 : ram.used + ram.free = ram.total)
    (h2 : ram.percent = (ram.used : ℚ) / (ram.total : ℚ) * 100) :
    (get_memory_info ram swap).ram_used + (get_memory_info ram swap).ram_free
        = (get_memory_info ram swap).ram_total
    ∧ |(get_memory_info ram swap).ram_used_percent
        - pyRound (((get_memory_info ram swap).ram_used : ℚ)
            / ((get_memory_info ram swap).ram_total : ℚ) * 100) 2|
      ≤ 1/100 := by
  refine ⟨h1, ?_⟩
  show |pyRound ram.percent 2 - pyRound ((ram.used : ℚ) / (ram.total : ℚ) * 100) 2| ≤ 1/100
  rw [h2, sub_self, abs_zero]
  norm_num

/-- Adapter snapshot for the witness: `600 + 400 = 1000` and
`percent = 600/1000*100 = 60`. -/
def exVmW : VirtualMemoryRaw :=
  { total := 1000, available := 400, used := 600, free := 400, percent := 60 }

theorem get_memory_info_invariant_witness :
    (get_memory_info exVmW exSwap).ram_used + (get_memory_info exVmW exSwap).ram_free
        = (get_memory_info exVmW exSwap).ram_total
    ∧ |(get_memory_info exVmW exSwap).ram_used_percent
        - pyRound (((get_memory_info exVmW exSwap).ram_used : ℚ)
            / ((get_memory_info exVmW exSwap).ram_total : ℚ) * 100) 2|
      ≤ 1/100 :=
  get_memory_info_invariant exVmW exSwap (by decide) (by norm_num [exVmW])

/-! ## Human-readable sizes (`commands/system.py`, `_human_readable_size`) -/

/-- The unit suffixes tried by the loop in `_human_readable_size`. -/
def humanUnits : List String := ["", "K", "M", "G", "T", "P"]

/-- Loop of `_human_readable_size`: for each unit, return if the magnitude
is below 1024, otherwise divide by 1024 and move to the next unit; when the
units run out the (already divided) value is rendered with suffix `P`. -/
def humanLoop : ℚ → List String → ℚ × String
  | q, [] => (q, "P")
  | q, u :: us => if |q| < 1024 then (q, u) else humanLoop (q / 1024) us

/-- Scaled value and suffix chosen by `_human_readable_size` for `b` bytes. -/
def humanSizeParts (b : ℤ) : ℚ × String := humanLoop (b : ℚ) humanUnits

/-- Python's fixed-point rendering `f"{q:.1f}"`: round half to even at one
decimal digit, then print with exactly one fractional digit. -/
def fmt1 (q : ℚ) : String :=
  let t : ℤ := roundHalfEven (Rat.divInt (q.num * 10) (q.den : ℤ))
  let digits : String :=
    toString (t.natAbs / 10) ++ "." ++ toString (t.natAbs % 10)
  if t < 0 ∨ (t = 0 ∧ q < 0) then "-" ++ digits else digits

/-- Shallow embedding of `_human_readable_size`. -/
def _human_readable_size (b : ℤ) : String :=
  fmt1 (humanSizeParts b).1 ++ (humanSizeParts b).2

/-- The suffix index the code actually selects: the smallest `i ≤ 5` with
`b < 1024 ^ (i + 1)`, and 6 (a seventh division, still rendered `P`) when
there is none. -/
def hrIdx (b : ℕ) : ℕ :=
  if b < 1024 then 0
  else if b < 1024 ^ 2 then 1
  else if b < 1024 ^ 3 then 2
  else if b < 1024 ^ 4 then 3
  else if b < 1024 ^ 5 then 4
  else if b < 1024 ^ 6 then 5
  else 6

theorem div_pow_lt_iff (b i : ℕ) :
    ((b : ℚ) / 1024 ^ i < 1024) ↔ b < 1024 ^ (i + 1) := by
  rw [div_lt_iff₀ (by positivity), ← pow_succ']
  exact_mod_cast Iff.rfl

/-- One loop step, on a nonnegative value written as `b / 1024 ^ i`. -/
theorem humanLoop_step (b i : ℕ) (u : String) (us : List String) :
    humanLoop ((b : ℚ) / 1024 ^ i) (u :: us)
      = if b < 1024 ^ (i + 1) then ((b : ℚ) / 1024 ^ i, u)
        else humanLoop ((b : ℚ) / 1024 ^ (i + 1)) us := by
  have habs : |(b : ℚ) / 1024 ^ i| = (b : ℚ) / 1024 ^ i :=
    abs_of_nonneg (by positivity)
  have hdiv : (b : ℚ) / 1024 ^ i / 1024 = (b : ℚ) / 1024 ^ (i + 1) := by
    rw [div_div, ← pow_succ]
  simp only [humanLoop, habs, div_pow_lt_iff, hdiv]

/-- C5 fails as stated: at `b = 1023` the code picks no suffix while
`⌊log₁₀₂₄(b+1)⌋ = 1` demands `K`; and at `b = 1024⁶` the code divides a
seventh time (numeric part 1), while `P`-without-further-scaling would give
numeric part `b / 1024⁵ = 1024`. -/
theorem human_readable_size_spec_counterexample :
    (humanSizeParts 1023).2 = ""
    ∧ min (Nat.log 1024 (1023 + 1)) 5 = 1
    ∧ humanUnits.getD 1 "" = "K"
    ∧ (humanSizeParts (1024 ^ 6)).1 = 1
    ∧ ((1024 ^ 6 : ℤ) : ℚ) / 1024 ^ 5 = 1024 := by
  refine ⟨?_, ?_, by decide, ?_, by norm_num⟩
  · show (humanLoop ((1023 : ℤ) : ℚ) humanUnits).2 = ""
    rw [humanUnits]
    simp only [humanLoop]
    rw [abs_of_nonneg (by norm_num), if_pos (by norm_num)]
  · have hlog : Nat.log 1024 1024 = 1 :=
      Nat.log_eq_of_pow_le_of_lt_pow (by norm_num) (by norm_num)
    rw [show (1023 + 1 : ℕ) = 1024 by norm_num, hlog]
    simp
  · show (humanLoop ((1024 ^ 6 : ℤ) : ℚ) humanUnits).1 = 1
    rw [humanUnits,
      show (((1024 ^ 6 : ℤ)) : ℚ) = (((1024 ^ 6 : ℕ) : ℚ)) / 1024 ^ 0 by push_cast; norm_num]
    rw [humanLoop_step, if_neg (by norm_num), humanLoop_step, if_neg (by norm_num),
      humanLoop_step, if_neg (by norm_num), humanLoop_step, if_neg (by norm_num),
      humanLoop_step, if_neg (by norm_num), humanLoop_step, if_neg (by norm_num)]
    show ((1024 ^ 6 : ℕ) : ℚ) / 1024 ^ 6 = 1
    norm_num

/-- C5 amended: the suffix is the one at the smallest index `i ≤ 5` with
`b < 1024^(i+1)` (not `⌊log₁₀₂₄(b+1)⌋`, which differs at `b = 1024^k - 1`),
the numeric part is `b / 1024^i`, nonnegative and below 1024; inputs
`b ≥ 1024⁶` are divided a seventh time and rendered with suffix `P` and a
numeric part `≥ 1`; the function is total, with `b = 0` giving `"0.0"`. -/
theorem human_size_parts_characterisation (b : ℕ) :
    humanSizeParts (b : ℤ)
      = ((b : ℚ) / 1024 ^ hrIdx b,
          if hrIdx b = 6 then "P" else humanUnits.getD (hrIdx b) "")
    ∧ (hrIdx b ≤ 5 → (b : ℚ) / 1024 ^ hrIdx b < 1024)
    ∧ 0 ≤ (b : ℚ) / 1024 ^ hrIdx b
    ∧ (hrIdx b = 6 → 1 ≤ (b : ℚ) / 1024 ^ hrIdx b)
    ∧ _human_readable_size 0 = "0.0" := by
  have h00 : _human_readable_size 0 = "0.0" := by
    have hp : humanSizeParts 0 = (0, "") := by
      rw [humanSizeParts, humanUnits, show ((0 : ℤ) : ℚ) = 0 by norm_num]
      simp only [humanLoop]
      rw [abs_of_nonneg (le_refl 0), if_pos (by norm_num)]
    rw [_human_readable_size, hp]
    decide
  have hstart : ((b : ℤ) : ℚ) = (b : ℚ) / 1024 ^ 0 := by push_cast; norm_num
  have hrun : humanSizeParts (b : ℤ) = humanLoop ((b : ℚ) / 1024 ^ 0) humanUnits := by
    rw [humanSizeParts, hstart]
  by_cases c1 : b < 1024
  · have hi : hrIdx b = 0 := by rw [hrIdx, if_pos c1]
    rw [hrun, humanUnits, humanLoop_step, if_pos (by simpa using c1), hi]
    refine ⟨by norm_num [humanUnits], ?_, by positivity, by simp, h00⟩
    intro _
    exact (div_pow_lt_iff b 0).mpr (by simpa using c1)
  by_cases c2 : b < 1024 ^ 2
  · have hi : hrIdx b = 1 := by rw [hrIdx, if_neg c1, if_pos c2]
    rw [hrun, humanUnits, humanLoop_step, if_neg (by simpa using c1),
      humanLoop_step, if_pos (by simpa using c2), hi]
    refine ⟨by norm_num [humanUnits], ?_, by positivity, by simp, h00⟩
    intro _
    exact (div_pow_lt_iff b 1).mpr (by simpa using c2)
  by_cases c3 : b < 1024 ^ 3
  · have hi : hrIdx b = 2 := by rw [hrIdx, if_neg c1, if_neg c2, if_pos c3]
    rw [hrun, humanUnits, humanLoop_step, if_neg (by simpa using c1),
      humanLoop_step, if_neg (by simpa using c2),
      humanLoop_step, if_pos (by simpa using c3), hi]
    refine ⟨by norm_num [humanUnits], ?_, by positivity, by simp, h00⟩
    intro _
    exact (div_pow_lt_iff b 2).mpr (by simpa using c3)
  by_cases c4 : b < 1024 ^ 4
  · have hi : hrIdx b = 3 := by rw [hrIdx, if_neg c1, if_neg c2, if_neg c3, if_pos c4]
    rw [hrun, humanUnits, humanLoop_step, if_neg (by simpa using c1),
      humanLoop_step, if_neg (by simpa using c2),
      humanLoop_step, if_neg (by simpa using c3),
      humanLoop_step, if_pos (by simpa using c4), hi]
    refine ⟨by norm_num [humanUnits], ?_, by positivity, by simp, h00⟩
    intro _
    exact (div_pow_lt_iff b 3).mpr (by simpa using c4)
  by_cases c5 : b < 1024 ^ 5
  · have hi : hrIdx b = 4 := by
      rw [hrIdx, if_neg c1, if_neg c2, if_neg c3, if_neg c4, if_pos c5]
    rw [hrun, humanUnits, humanLoop_step, if_neg (by simpa using c1),
      humanLoop_step, if_neg (by simpa using c2),
      humanLoop_step, if_neg (by simpa using c3),
      humanLoop_step, if_neg (by simpa using c4),
      humanLoop_step, if_pos (by simpa using c5), hi]
    refine ⟨by norm_num [humanUnits], ?_, by positivity, by simp, h00⟩
    intro _
    exact (div_pow_lt_iff b 4).mpr (by simpa using c5)
  by_cases c6 : b < 1024 ^ 6
  · have hi : hrIdx b = 5 := by
      rw [hrIdx, if_neg c1, if_neg c2, if_neg c3, if_neg c4, if_neg c5, if_pos c6]
    rw [hrun, humanUnits, humanLoop_step, if_neg (by simpa using c1),
      humanLoop_step, if_neg (by simpa using c2),
      humanLoop_step, if_neg (by simpa using c3),
      humanLoop_step, if_neg (by simpa using c4),
      humanLoop_step, if_neg (by simpa using c5),
      humanLoop_step, if_pos (by simpa using c6), hi]
    refine ⟨by norm_num [humanUnits], ?_, by positivity, by simp, h00⟩
    intro _
    exact (div_pow_lt_iff b 5).mpr (by simpa using c6)
  · have hi : hrIdx b = 6 := by
      rw [hrIdx, if_neg c1, if_neg c2, if_neg c3, if_neg c4, if_neg c5, if_neg c6]
    rw [hrun, humanUnits, humanLoop_step, if_neg (by simpa using c1),
      humanLoop_step, if_neg (by simpa using c2),
      humanLoop_step, if_neg (by simpa using c3),
      humanLoop_step, if_neg (by simpa using c4),
      humanLoop_step, if_neg (by simpa using c5),
      humanLoop_step, if_neg (by simpa using c6), hi]
    refine ⟨by simp [humanLoop], by simp, by positivity, ?_, h00⟩
    intro _
    rw [one_le_div₀ (by positivity)]
    have hle : (1024 : ℕ) ^ 6 ≤ b := le_of_not_lt c6
    calc ((1024 : ℚ)) ^ 6 = ((1024 ^ 6 : ℕ) : ℚ) := by push_cast; norm_num
      _ ≤ (b : ℚ) := by exact_mod_cast hle

theorem human_size_parts_characterisation_witness :
    humanSizeParts 2048 = ((2048 : ℚ) / 1024 ^ 1, "K")
    ∧ (2048 : ℚ) / 1024 ^ 1 < 1024 := by
  have h := human_size_parts_characterisation 2048
  have hi : hrIdx 2048 = 1 := by decide
  rw [hi] at h
  refine ⟨?_, ?_⟩
  · simpa [humanUnits] using h.1
  · simpa using h.2.1 (by norm_num)

/-! ## Network interfaces (`commands/network.py`, `get_network_interfaces`) -/

/-- One address record from `psutil.net_if_addrs()`. Families: 17 is
`psutil.AF_LINK` (Linux `AF_PACKET`), 2 is `AF_INET`, 10 is `AF_INET6`. -/
structure IfAddr where
  family : ℤ
  address : String
  netmask : Option String
  broadcast : Option String
deriving DecidableEq

/-- One entry of `psutil.net_if_stats()`. -/
structure IfStats where
  isup : Bool
  speed : ℤ
  mtu : ℤ
deriving DecidableEq

/-- IPv4 address record of the output. -/
structure Ipv4Info where
  address : String
  netmask : String
  broadcast : String
deriving DecidableEq

/-- IPv6 address record of the output. -/
structure Ipv6Info where
  address : String
  netmask : String
deriving DecidableEq

/-- One interface record of the output. -/
structure IfaceInfo where
  name : String
  status : String
  speed : ℤ
  mtu : ℤ
  ipv4_addresses : List Ipv4Info
  ipv6_addresses : List Ipv6Info
  mac_address : String
deriving DecidableEq

/-- The `psutil.AF_LINK` constant on Linux. -/
def AF_LINK : ℤ := 17

/-- Address-parsing loop of `get_network_interfaces`: the last `AF_LINK`
entry wins for the MAC address, `AF_INET`/`AF_INET6` entries are appended
in order, with `or ''` collapsing missing masks. -/
def parseAddrs (addrs : List IfAddr) :
    List Ipv4Info × List Ipv6Info × String :=
  addrs.foldl
    (fun acc addr =>
      if addr.family = AF_LINK then (acc.1, acc.2.1, addr.address)
      else if addr.family = 2 then
        (acc.1 ++ [{ address := addr.address
                     netmask := addr.netmask.getD ""
                     broadcast := addr.broadcast.getD "" }], acc.2.1, acc.2.2)
      else if addr.family = 10 then
        (acc.1, acc.2.1 ++ [{ address := addr.address
                              netmask := addr.netmask.getD "" }], acc.2.2)
      else acc)
    ([], [], "")

/-- Body of the interface loop: builds `iface_info` for one name from the
address table, looking the name up in the stats table (`stats.get(name)`);
a missing stats entry degrades to `DOWN`/`0`/`0`. -/
def buildIface (stats : List (String × IfStats)) (name : String)
    (addrs : List IfAddr) : IfaceInfo :=
  let st := stats.lookup name
  let parsed := parseAddrs addrs
  { name := name
    status := match st with
      | some s => if s.isup then "UP" else "DOWN"
      | none => "DOWN"
    speed := match st with
      | some s => s.speed
      | none => 0
    mtu := match st with
      | some s => s.mtu
      | none => 0
    ipv4_addresses := parsed.1
    ipv6_addresses := parsed.2.1
    mac_address := parsed.2.2 }

/-- System-wide I/O counters of `psutil.net_io_counters()`, passed through
verbatim. -/
structure IoCounters where
  bytes_sent : ℕ
  bytes_recv : ℕ
  packets_sent : ℕ
  packets_recv : ℕ
  errin : ℕ
  errout : ℕ
  dropin : ℕ
  dropout : ℕ
deriving DecidableEq

/-- Return value of `get_network_interfaces`. -/
structure NetworkInterfacesResult where
  interfaces : List IfaceInfo
  io_stats : IoCounters
deriving DecidableEq

/-- Shallow embedding of `get_network_interfaces`: the loop ranges over the
entries of the address table only (`for iface_name, iface_addrs in
addrs.items()`), joining in stats by name. -/
def get_network_interfaces (addrs : List (String × List IfAddr))
    (stats : List (String × IfStats)) (io : IoCounters) :
    NetworkInterfacesResult :=
  { interfaces := addrs.map (fun p => buildIface stats p.1 p.2)
    io_stats := io }

/-- Stats entry and I/O counters used in the C3 counterexample. -/
def exStats : IfStats := { isup := true, speed := 1000, mtu := 1500 }

/-- Zero I/O counters for concrete inputs. -/
def exIo : IoCounters :=
  { bytes_sent := 0, bytes_recv := 0, packets_sent := 0, packets_recv := 0
    errin := 0, errout := 0, dropin := 0, dropout := 0 }

/-- C3 fails as stated: an interface present only in the link-stats table
(here `eth0`, absent from the address table) is dropped from the output —
the loop iterates over the address table alone. -/
theorem get_network_interfaces_join_counterexample :
    (get_network_interfaces [] [("eth0", exStats)] exIo).interfaces = []
    ∧ ¬ ∃ e ∈ (get_network_interfaces [] [("eth0", exStats)] exIo).interfaces,
          e.name = "eth0" := by
  refine ⟨rfl, ?_⟩
  rintro ⟨e, he, -⟩
  simp [get_network_interfaces] at he

/-- C3 amended: every interface named in the address table appears in the
output (in table order), and when the link-stats table has no entry of
that name the stats side degrades to `DOWN`/`0`/`0` instead of dropping
the interface; an interface present only in the link-stats table is
dropped. -/
theorem get_network_interfaces_join (addrs : List (String × List IfAddr))
    (stats : List (String × IfStats)) (io : IoCounters)
    (name : String) (as : List IfAddr)
    (hmem : (name, as) ∈ addrs) :
    ∃ e ∈ (get_network_interfaces addrs stats io).interfaces,
      e.name = name
      ∧ (stats.lookup name = none →
          e.status = "DOWN" ∧ e.speed = 0 ∧ e.mtu = 0) := by
  refine ⟨buildIface stats name as, ?_, rfl, ?_⟩
  · exact List.mem_map.mpr ⟨(name, as), hmem, rfl⟩
  · intro hnone
    rw [buildIface]
    rw [hnone]
    exact ⟨rfl, rfl, rfl⟩

theorem get_network_interfaces_join_witness :
    ∃ e ∈ (get_network_interfaces [("lo", [])] [] exIo).interfaces,
      e.name = "lo"
      ∧ (([] : List (String × IfStats)).lookup "lo" = none →
          e.status = "DOWN" ∧ e.speed = 0 ∧ e.mtu = 0) :=
  get_network_interfaces_join [("lo", [])] [] exIo "lo" []
    (List.mem_singleton.mpr rfl)

/-! ## Python string primitives

Lean's byte-indexed `String` functions do not reduce in the kernel, so the
Python `str` methods used by the collectors are modelled on the character
list (`String.data`), keeping every definition evaluable. -/

/-- Split a character list at every character satisfying `p`, keeping empty
pieces (the behaviour of Python's `str.split(sep)`). -/
def splitByPred (p : Char → Bool) (l : List Char) : List (List Char) :=
  l.foldr
    (fun ch acc =>
      if p ch then [] :: acc
      else match acc with
        | [] => [[ch]]
        | a :: as => (ch :: a) :: as)
    [[]]

/-- Python's `s.split()` (no separator): split on whitespace runs and drop
empty pieces. -/
def pySplitWs (s : String) : List String :=
  ((splitByPred Char.isWhitespace s.data).filter (fun t => t ≠ [])).map String.mk

/-- Python's `s.split('\n')`. -/
def pySplitLines (s : String) : List String :=
  (splitByPred (fun c => c = '\n') s.data).map String.mk

/-- Python's `s.strip()`. -/
def pyStrip (s : String) : String :=
  String.mk
    (((s.data.dropWhile Char.isWhitespace).reverse.dropWhile
        Char.isWhitespace).reverse)

/-- Python's `s.upper()` (ASCII, which is all the collectors feed it). -/
def pyUpper (s : String) : String := String.mk (s.data.map Char.toUpper)

/-- Python's `s.lower()` (ASCII). -/
def pyLower (s : String) : String := String.mk (s.data.map Char.toLower)

/-- Python's `s.endswith(suffix)`. -/
def pyEndswith (s suffix : String) : Bool := suffix.data.isSuffixOf s.data

/-- Helper for substring containment on character lists. -/
def listContains (needle : List Char) : List Char → Bool
  | [] => needle.isEmpty
  | c :: rest => needle.isPrefixOf (c :: rest) || listContains needle rest

/-- Python's `needle in hay`. -/
def pyContains (hay needle : String) : Bool := listContains needle.data hay.data

/-! ## Listening ports (`commands/network.py`, `get_listening_ports`) -/

/-- A bound local address (`conn.laddr`); absent models psutil's empty
tuple. -/
structure ConnAddr where
  ip : String
  port : ℕ
deriving DecidableEq

/-- One entry of `psutil.net_connections(kind='inet')`. `type` is the
socket type: 1 = `SOCK_STREAM` (TCP), 2 = `SOCK_DGRAM` (UDP). -/
structure Conn where
  status : String
  type : ℤ
  laddr : Option ConnAddr
  pid : Option ℤ
deriving DecidableEq

/-- One entry of the returned port list. -/
structure PortInfo where
  proto : String
  local_address : String
  pid : Option ℤ
  program : Option String
deriving DecidableEq

/-- Python truthiness of `conn.pid` (`None` and 0 are falsy). -/
def pidTruthy : Option ℤ → Bool
  | none => false
  | some p => p != 0

/-- Loop body of the primary path: keep TCP sockets in LISTEN state and
UDP sockets with a bound address; resolve the owning program best-effort
through the process adapter (`none` models a raised
`NoSuchProcess`/`AccessDenied`, leaving the field `None`). -/
def buildPort (procName : ℤ → Option String) (conn : Conn) : Option PortInfo :=
  if conn.status = "LISTEN" ∨ (conn.type = 2 ∧ conn.laddr.isSome) then
    some
      { proto := if conn.type = 1 then "TCP" else "UDP"
        local_address := match conn.laddr with
          | some a => a.ip ++ ":" ++ toString a.port
          | none => "unknown"
        pid := if pidTruthy conn.pid then conn.pid else none
        program := if pidTruthy conn.pid then
            match conn.pid with
            | some p => procName p
            | none => none
          else none }
  else none

/-- Fallback parsing of one `ss -tulnp` output line: skip blank lines and
lines with fewer than 5 whitespace-separated columns; otherwise take the
protocol from column 0 (uppercased) and the local address from column 4. -/
def ssParseLine (line : String) : Option PortInfo :=
  if pyStrip line ≠ "" then
    let parts := pySplitWs line
    if 5 ≤ parts.length then
      some
        { proto := pyUpper (parts.getD 0 "")
          local_address := parts.getD 4 ""
          pid := none
          program := none }
    else none
  else none

/-- Outcome of the primary `psutil.net_connections` query. -/
inductive NetConnOutcome
  | ok (conns : List Conn)
  | accessDenied
deriving DecidableEq

/-- Outcome of running the `ss -tulnp` subprocess. -/
inductive SsOutcome
  | ok (stdout : String)
  | calledProcessError
  | fileNotFound
deriving DecidableEq

/-- Return value of `get_listening_ports`. -/
structure ListeningPortsResult where
  listening_ports : List PortInfo
  total_count : ℕ
deriving DecidableEq

/-- Shallow embedding of `get_listening_ports`: primary socket-table path;
on a whole-table `AccessDenied`, the `ss` fallback (whose own failures
leave the list empty); `total_count` computed after assembly. -/
def get_listening_ports (conns : NetConnOutcome)
    (procName : ℤ → Option String) (ss : SsOutcome) : ListeningPortsResult :=
  let ports : List PortInfo :=
    match conns with
    | .ok cs => cs.filterMap (buildPort procName)
    | .accessDenied =>
        match ss with
        | .ok out => ((pySplitLines out).drop 1).filterMap ssParseLine
        | .calledProcessError => []
        | .fileNotFound => []
  { listening_ports := ports, total_count := ports.length }

/-- C7: a whole-table permission failure on the primary path switches to
the `ss` fallback and still yields a well-formed (possibly empty) list — a
failing fallback yields the empty result rather than an error — and any
blank or under-5-column line contributes no entry. -/
theorem get_listening_ports_fallback (procName : ℤ → Option String) :
    (∀ out, (get_listening_ports .accessDenied procName (.ok out)).listening_ports
        = ((pySplitLines out).drop 1).filterMap ssParseLine)
    ∧ get_listening_ports .accessDenied procName .calledProcessError
        = { listening_ports := [], total_count := 0 }
    ∧ get_listening_ports .accessDenied procName .fileNotFound
        = { listening_ports := [], total_count := 0 }
    ∧ ∀ line, (pyStrip line = "" ∨ (pySplitWs line).length < 5) →
        ssParseLine line = none := by
  refine ⟨fun out => rfl, rfl, rfl, ?_⟩
  intro line h
  unfold ssParseLine
  rcases h with h | h
  · rw [if_neg (by simp [h])]
  · by_cases h1 : pyStrip line ≠ ""
    · rw [if_pos h1, if_neg (by omega)]
    · rw [if_neg h1]

theorem get_listening_ports_fallback_witness :
    ssParseLine "tcp LISTEN 0" = none
    ∧ (get_listening_ports .accessDenied (fun _ => none)
        (.ok "Netid State\ntcp LISTEN 0")).listening_ports = [] := by
  have h := get_listening_ports_fallback (fun _ => none)
  refine ⟨h.2.2.2 "tcp LISTEN 0" (Or.inr (by decide)), ?_⟩
  rw [h.1 "Netid State\ntcp LISTEN 0"]
  decide

/-- C10: `total_count` always equals the length of the returned port list,
on the primary path and on both fallback outcomes alike — this view never
truncates. -/
theorem get_listening_ports_total_count (conns : NetConnOutcome)
    (procName : ℤ → Option String) (ss : SsOutcome) :
    (get_listening_ports conns procName ss).total_count
      = (get_listening_ports conns procName ss).listening_ports.length := rfl

/-! ## Process detail (`commands/process.py`, `get_process_info`) -/

/-- The values of the psutil `Process` method calls made on the success
path of `get_process_info`. `created` stands for the already-rendered
`strftime` timestamp; `openFiles = none` models the inner
`AccessDenied`/`NoSuchProcess` of `proc.open_files()`, which the code maps
to 0. The adapter is modelled atomically: one query either yields all
fields or raises. -/
structure ProcDetailRaw where
  name : String
  exe : String
  cmdline : List String
  status : String
  username : String
  ppid : ℤ
  cpu : ℚ
  rss : ℕ
  vms : ℕ
  memPercent : ℚ
  created : String
  cpuTimeUser : ℚ
  cpuTimeSystem : ℚ
  threads : ℕ
  openFiles : Option ℕ
deriving DecidableEq

/-- Outcome of querying the process table for one pid. -/
inductive ProcQueryOutcome
  | ok (d : ProcDetailRaw)
  | noSuchProcess
  | accessDenied
  | otherError (msg : String)
deriving DecidableEq

/-- The result dict of `get_process_info`; `none` models an absent key. -/
structure ProcessInfoResult where
  name : Option String := none
  exe : Option String := none
  cmdline : Option String := none
  status : Option String := none
  user : Option String := none
  pid : Option ℤ := none
  ppid : Option ℤ := none
  cpu_percent : Option ℚ := none
  memory_rss : Option ℕ := none
  memory_vms : Option ℕ := none
  memory_percent : Option ℚ := none
  created : Option String := none
  cpu_time_user : Option ℚ := none
  cpu_time_system : Option ℚ := none
  threads : Option ℕ := none
  open_files : Option ℕ := none
  error : Option String := none
deriving DecidableEq

/-- Shallow embedding of `get_process_info`, as a function of the process
adapter: the pid is validated before the adapter is consulted. -/
def get_process_info (adapter : ℤ → ProcQueryOutcome) (pid : ℤ) :
    ProcessInfoResult :=
  if pid < 1 then
    { error := some s!"Invalid PID: {pid} (must be >= 1)" }
  else
    match adapter pid with
    | .ok d =>
        { name := some d.name
          exe := some (if d.exe = "" then "unknown" else d.exe)
          cmdline := some (if d.cmdline = [] then d.name
            else String.intercalate " " d.cmdline)
          status := some d.status
          user := some d.username
          pid := some pid
          ppid := some d.ppid
          cpu_percent := some (pyRound d.cpu 1)
          memory_rss := some d.rss
          memory_vms := some d.vms
          memory_percent := some (pyRound d.memPercent 2)
          created := some d.created
          cpu_time_user := some (pyRound d.cpuTimeUser 2)
          cpu_time_system := some (pyRound d.cpuTimeSystem 2)
          threads := some d.threads
          open_files := some (d.openFiles.getD 0)
          error := none }
    | .noSuchProcess => { error := some s!"Process {pid} not found" }
    | .accessDenied => { error := some s!"Access denied to process {pid} (try sudo)" }
    | .otherError msg => { error := some s!"Error getting process info: {msg}" }

/-- C8: for `pid < 1` the result is the validation error alone, and it does
not depend on the adapter at all — the process table is never consulted. -/
theorem get_process_info_rejects_invalid_pid
    (a₁ a₂ : ℤ → ProcQueryOutcome) (pid : ℤ) (h : pid < 1) :
    get_process_info a₁ pid = get_process_info a₂ pid
    ∧ get_process_info a₁ pid
        = { error := some s!"Invalid PID: {pid} (must be >= 1)" } := by
  unfold get_process_info
  rw [if_pos h, if_pos h]
  exact ⟨rfl, rfl⟩

theorem get_process_info_rejects_invalid_pid_witness :
    get_process_info (fun _ => .noSuchProcess) 0
        = get_process_info (fun _ => .accessDenied) 0
    ∧ get_process_info (fun _ => .noSuchProcess) 0
        = { error := some "Invalid PID: 0 (must be >= 1)" } := by
  have h := get_process_info_rejects_invalid_pid
    (fun _ => .noSuchProcess) (fun _ => .accessDenied) 0 (by decide)
  refine ⟨h.1, ?_⟩
  rw [h.2]
  decide

/-! ## Services (`commands/service.py`) -/

/-- Outcome of one `subprocess.run(..., check=False)` call. -/
inductive RunOutcome
  | ok (stdout : String) (returncode : ℤ)
  | fileNotFound
deriving DecidableEq

/-- Return value of `get_service_status`. -/
structure ServiceStatusResult where
  status : Option String
  error : Option String
deriving DecidableEq

/-- Return value of `get_service_logs`. -/
structure ServiceLogsResult where
  logs : Option String
  error : Option String
deriving DecidableEq

/-- The ASCII apostrophe, used inside the not-found messages. -/
def apos : String := String.singleton (Char.ofNat 39)

/-- Unit-name canonicalization shared by `get_service_status` and
`get_service_logs`: append `.service` unless already present. -/
def canonicalizeUnit (service_name : String) : String :=
  if pyEndswith service_name ".service" then service_name
  else service_name ++ ".service"

/-- Argument vector of the status query. -/
def statusArgv (name : String) : List String :=
  ["systemctl", "status", name, "--no-pager", "--full"]

/-- The `[1, 10000]` clamp applied to the requested log line count. -/
def clampLines (lines : ℤ) : ℤ := max 1 (min lines 10000)

/-- Argument vector of the logs query. -/
def logsArgv (name : String) (lines : ℤ) : List String :=
  ["journalctl", "-u", name, "-n", toString lines, "--no-pager"]

/-- Shallow embedding of `get_service_status`. -/
def get_service_status (run : List String → RunOutcome)
    (service_name : String) : ServiceStatusResult :=
  match run (statusArgv (canonicalizeUnit service_name)) with
  | .ok stdout _ =>
      { status := some stdout
        error :=
          if pyContains (pyLower stdout) "could not be found"
              || pyContains (pyLower stdout) "not loaded" then
            some ("Service " ++ apos ++ canonicalizeUnit service_name
              ++ apos ++ " not found")
          else none }
  | .fileNotFound =>
      { status := some ""
        error := some "Error: systemctl not found (systemd required)" }

/-- Shallow embedding of `get_service_logs`. -/
def get_service_logs (run : List String → RunOutcome)
    (service_name : String) (lines : ℤ) : ServiceLogsResult :=
  match run (logsArgv (canonicalizeUnit service_name) (clampLines lines)) with
  | .ok stdout rc =>
      { logs := some stdout
        error :=
          if pyContains stdout "No journal files were found"
              || ((rc != 0) && (stdout == "")) then
            some ("Service " ++ apos ++ canonicalizeUnit service_name ++ apos
              ++ " not found or no logs available")
          else none }
  | .fileNotFound =>
      { logs := some ""
        error := some "Error: journalctl not found (systemd required)" }

theorem canonicalizeUnit_append :
    ∀ s : String, pyEndswith (s ++ ".service") ".service" = true := by
  intro s
  rw [pyEndswith, List.isSuffixOf_iff_suffix, String.data_append]
  exact List.suffix_append _ _

/-- C9: canonicalization appends `.service` to a bare name, leaves a
suffixed name unchanged, and is idempotent; both the status and the logs
lookup consult the external query only at the canonicalized unit name (two
adapters agreeing there produce identical results). -/
theorem service_name_canonicalization :
    canonicalizeUnit "sshd" = "sshd.service"
    ∧ canonicalizeUnit "sshd.service" = "sshd.service"
    ∧ (∀ s, canonicalizeUnit (canonicalizeUnit s) = canonicalizeUnit s)
    ∧ (∀ (r₁ r₂ : List String → RunOutcome) s,
        r₁ (statusArgv (canonicalizeUnit s)) = r₂ (statusArgv (canonicalizeUnit s)) →
        get_service_status r₁ s = get_service_status r₂ s)
    ∧ (∀ (r₁ r₂ : List String → RunOutcome) s lines,
        r₁ (logsArgv (canonicalizeUnit s) (clampLines lines))
            = r₂ (logsArgv (canonicalizeUnit s) (clampLines lines)) →
        get_service_logs r₁ s lines = get_service_logs r₂ s lines) := by
  refine ⟨by decide, by decide, ?_, ?_, ?_⟩
  · intro s
    by_cases h : pyEndswith s ".service" = true
    · have h1 : canonicalizeUnit s = s := by rw [canonicalizeUnit, if_pos h]
      rw [h1]
      exact h1
    · have h1 : canonicalizeUnit s = s ++ ".service" := by
        rw [canonicalizeUnit, if_neg h]
      rw [h1, canonicalizeUnit, if_pos (canonicalizeUnit_append s)]
  · intro r₁ r₂ s h
    unfold get_service_status
    rw [h]
  · intro r₁ r₂ s lines h
    unfold get_service_logs
    rw [h]

/-- Adapter answering every query. -/
def exRunA : List String → RunOutcome := fun _ => .ok "ok" 0

/-- Adapter answering only the canonicalized status query for `sshd`. -/
def exRunB : List String → RunOutcome := fun argv =>
  if argv = statusArgv "sshd.service" then .ok "ok" 0 else .fileNotFound

/-- Adapter answering only the canonicalized logs query for `sshd`. -/
def exRunC : List String → RunOutcome := fun argv =>
  if argv = logsArgv "sshd.service" 50 then .ok "ok" 0 else .fileNotFound

theorem service_name_canonicalization_witness :
    get_service_status exRunA "sshd" = get_service_status exRunB "sshd"
    ∧ get_service_logs exRunA "sshd" 50 = get_service_logs exRunC "sshd" 50 :=
  ⟨service_name_canonicalization.2.2.2.1 exRunA exRunB "sshd" (by decide),
   service_name_canonicalization.2.2.2.2 exRunA exRunC "sshd" 50 (by decide)⟩

end LinuxUtcp
